import Mathlib

/-
  Verification of the xoshiro256++ / xoshiro128++ generator library
  (file xoshiro.hpp).  Machine words are modelled as natural numbers
  with explicit reduction modulo 2 ^ 64 (respectively 2 ^ 32) at every
  operation that can overflow.  Byte-level operations (memcpy based
  half-word extraction, the memcmp based comparison, the stream
  serialization format) are modelled on a little-endian host, the
  platform the wrapped reference code targets: the byte at the lowest
  address is the least significant one.
-/

namespace Xoshiro

/-- Left rotation of a 64-bit word, from the source function rotl64:
the bitwise or of the word shifted left by k and the word shifted right
by 64 - k, both reduced to 64 bits. -/
def rotl64 (x : Nat) (k : Nat) : Nat :=
  ((x <<< k) % 2 ^ 64) ||| ((x >>> (64 - k)) % 2 ^ 64)

/-- Left rotation of a 32-bit word, from the source function rotl32. -/
def rotl32 (x : Nat) (k : Nat) : Nat :=
  ((x <<< k) % 2 ^ 32) ||| ((x >>> (32 - k)) % 2 ^ 32)

/-- The splitmix64 seed expander from the source: one fixed-increment
addition followed by two multiply-xor-shift mixing rounds, all in
64-bit arithmetic. -/
def splitmix64 (seed : Nat) : Nat :=
  let z := (seed + 0x9e3779b97f4a7c15) % 2 ^ 64
  let z := ((z ^^^ (z >>> 30)) * 0xbf58476d1ce4e5b9) % 2 ^ 64
  let z := ((z ^^^ (z >>> 27)) * 0x94d049bb133111eb) % 2 ^ 64
  z ^^^ (z >>> 31)

/-- The four 64-bit state words of Xoshiro256PP. -/
structure State256 where
  s0 : Nat
  s1 : Nat
  s2 : Nat
  s3 : Nat
deriving DecidableEq, Repr

/-- Well-formedness: each state word is a 64-bit value. -/
@[reducible] def State256.wf (s : State256) : Prop :=
  s.s0 < 2 ^ 64 ∧ s.s1 < 2 ^ 64 ∧ s.s2 < 2 ^ 64 ∧ s.s3 < 2 ^ 64

/-- The built-in default state constants of Xoshiro256PP. -/
def default256 : State256 :=
  ⟨0x3d23dce41c588f8c, 0x10c770bb8da027b0, 0xc7a4c5e87c63ba25, 0xa830f83239465a2e⟩

/-- The all-zero 256-bit state. -/
def zero256 : State256 := ⟨0, 0, 0, 0⟩

/-- Scalar seeding of Xoshiro256PP: state word 0 is splitmix64 applied
twice to the seed, and each further word is splitmix64 of the previous
word. -/
def seed256 (seed : Nat) : State256 :=
  let a0 := splitmix64 (splitmix64 seed)
  let a1 := splitmix64 a0
  let a2 := splitmix64 a1
  let a3 := splitmix64 a2
  ⟨a0, a1, a2, a3⟩

/-- One call of the Xoshiro256PP call operator: the returned value and
the updated state, mirroring the sequential assignments of the source. -/
def next256 (s : State256) : Nat × State256 :=
  let result := (rotl64 ((s.s0 + s.s3) % 2 ^ 64) 23 + s.s0) % 2 ^ 64
  let t := (s.s1 <<< 17) % 2 ^ 64
  let a2 := s.s2 ^^^ s.s0
  let a3 := s.s3 ^^^ s.s1
  let a1 := s.s1 ^^^ a2
  let a0 := s.s0 ^^^ a3
  let b2 := a2 ^^^ t
  let b3 := rotl64 a3 45
  (result, ⟨a0, a1, b2, b3⟩)

/-- The state after one advance of Xoshiro256PP. -/
def stepState256 (s : State256) : State256 := (next256 s).2

/-- The value returned by one advance of Xoshiro256PP. -/
def output256 (s : State256) : Nat := (next256 s).1

/-- The discard member of Xoshiro256PP: invoke the call operator z
times, dropping each returned value. -/
def discard256 : Nat → State256 → State256
  | 0, s => s
  | n + 1, s => discard256 n (stepState256 s)

/-- The four 32-bit state words of Xoshiro128PP. -/
structure State128 where
  s0 : Nat
  s1 : Nat
  s2 : Nat
  s3 : Nat
deriving DecidableEq, Repr

/-- Well-formedness: each state word is a 32-bit value. -/
@[reducible] def State128.wf (s : State128) : Prop :=
  s.s0 < 2 ^ 32 ∧ s.s1 < 2 ^ 32 ∧ s.s2 < 2 ^ 32 ∧ s.s3 < 2 ^ 32

/-- The built-in default state constants of Xoshiro128PP. -/
def default128 : State128 :=
  ⟨0x1c588f8c, 0x3d23dce4, 0x8da027b0, 0x10c770bb⟩

/-- The all-zero 128-bit state. -/
def zero128 : State128 := ⟨0, 0, 0, 0⟩

/-- One call of the Xoshiro128PP call operator. -/
def next128 (s : State128) : Nat × State128 :=
  let result := (rotl32 ((s.s0 + s.s3) % 2 ^ 32) 7 + s.s0) % 2 ^ 32
  let t := (s.s1 <<< 9) % 2 ^ 32
  let a2 := s.s2 ^^^ s.s0
  let a3 := s.s3 ^^^ s.s1
  let a1 := s.s1 ^^^ a2
  let a0 := s.s0 ^^^ a3
  let b2 := a2 ^^^ t
  let b3 := rotl32 a3 11
  (result, ⟨a0, a1, b2, b3⟩)

/-- The state after one advance of Xoshiro128PP. -/
def stepState128 (s : State128) : State128 := (next128 s).2

/-- The value returned by one advance of Xoshiro128PP. -/
def output128 (s : State128) : Nat := (next128 s).1

/-- The discard member of Xoshiro128PP. -/
def discard128 : Nat → State128 → State128
  | 0, s => s
  | n + 1, s => discard128 n (stepState128 s)

/-- The eight bytes of a 64-bit word in little-endian order, the byte
at the lowest address first. -/
def u64ToBytes (x : Nat) : List Nat :=
  [x % 256, x / 256 % 256, x / 65536 % 256, x / 16777216 % 256,
   x / 4294967296 % 256, x / 1099511627776 % 256,
   x / 281474976710656 % 256, x / 72057594037927936 % 256]

/-- Reassemble a little-endian byte list into a natural number, the
first byte being the least significant one. -/
def bytesToNat (l : List Nat) : Nat :=
  l.foldr (fun b acc => b % 256 + 256 * acc) 0

/-- Model of the source function extract_32bits_from64_left: memcpy of
the four lowest-addressed bytes of a 64-bit word into a 32-bit word.
On a little-endian host those bytes hold the LOW 32 bits of the word,
despite the name. -/
def extract_32bits_from64_left (x : Nat) : Nat :=
  bytesToNat ((u64ToBytes x).take 4)

/-- Model of the source function extract_32bits_from64_right: memcpy of
the four highest-addressed bytes of a 64-bit word into a 32-bit word.
On a little-endian host those bytes hold the HIGH 32 bits. -/
def extract_32bits_from64_right (x : Nat) : Nat :=
  bytesToNat ((u64ToBytes x).drop 4)

/-- Model of the source function assign_32bits_to64_left: the function
receives the destination word BY VALUE and memcpy writes into that
local copy, so the value visible to the caller is returned unchanged. -/
def assign_32bits_to64_left (assign_to : Nat) (take_from : Nat) : Nat :=
  assign_to

/-- Model of the source function assign_32bits_to64_right: same
by-value defect as assign_32bits_to64_left, no caller-visible effect. -/
def assign_32bits_to64_right (assign_to : Nat) (take_from : Nat) : Nat :=
  assign_to

/-- Seeding of Xoshiro128PP from a 64-bit scalar, from the source:
two chained splitmix64 values t1 and t2 are split into 32-bit halves
with the memcpy-based extractors, each half is expanded once more by
splitmix64, and the result is truncated into the 32-bit state word. -/
def seed128_64 (seed : Nat) : State128 :=
  let t1 := splitmix64 seed
  let t2 := splitmix64 t1
  ⟨splitmix64 (extract_32bits_from64_left t1) % 2 ^ 32,
   splitmix64 (extract_32bits_from64_right t1) % 2 ^ 32,
   splitmix64 (extract_32bits_from64_left t2) % 2 ^ 32,
   splitmix64 (extract_32bits_from64_right t2) % 2 ^ 32⟩

/-- Statement of claim C2 as written: state word 0 comes from the HIGH
half of t1, word 1 from the LOW half of t1, word 2 from the HIGH half
of t2, word 3 from the LOW half of t2. -/
def seed128_64_claim (seed : Nat) : State128 :=
  let t1 := splitmix64 seed
  let t2 := splitmix64 t1
  ⟨splitmix64 (t1 / 2 ^ 32 % 2 ^ 32) % 2 ^ 32,
   splitmix64 (t1 % 2 ^ 32) % 2 ^ 32,
   splitmix64 (t2 / 2 ^ 32 % 2 ^ 32) % 2 ^ 32,
   splitmix64 (t2 % 2 ^ 32) % 2 ^ 32⟩

/-- Seeding of Xoshiro128PP from a 32-bit scalar. The source declares
a 64-bit local that is never given a value, calls the two by-value assign helpers,
which have no caller-visible effect, and then delegates to the 64-bit
seeding with the still indeterminate local. The parameter temp models
the indeterminate initial value of that local variable. -/
def seed128_32 (temp : Nat) (s : Nat) : State128 :=
  let t := assign_32bits_to64_left temp s
  let t := assign_32bits_to64_right t s
  seed128_64 t

/-- The 32 bytes of the Xoshiro256PP state array, in memory order on a
little-endian host, as compared by memcmp in the equality operators. -/
def stateBytes256 (s : State256) : List Nat :=
  u64ToBytes s.s0 ++ u64ToBytes s.s1 ++ u64ToBytes s.s2 ++ u64ToBytes s.s3

/-- The equality operator of Xoshiro256PP from the source: the raw
memcmp result over the state bytes converted to bool, which is true
exactly when the byte arrays DIFFER, since memcmp returns zero on
equality. -/
def eqOp256 (a b : State256) : Bool :=
  decide (stateBytes256 a ≠ stateBytes256 b)

/-- The pre-C++20 inequality operator of Xoshiro256PP from the source:
the logical negation of the memcmp result, true exactly when the byte
arrays AGREE. -/
def neOp256 (a b : State256) : Bool :=
  decide (stateBytes256 a = stateBytes256 b)

/-- The stream output operator of Xoshiro256PP: the raw bytes of each
of the four state words in memory order, with a single space byte
(value 32) between consecutive words. -/
def serialize256 (s : State256) : List Nat :=
  u64ToBytes s.s0 ++ 32 :: (u64ToBytes s.s1 ++ 32 :: (u64ToBytes s.s2 ++ 32 :: u64ToBytes s.s3))

/-- The byte stream of serialize256 with the three separator positions
holding arbitrary byte values, modelling corrupted separators. -/
def serializeWith256 (s : State256) (c1 c2 c3 : Nat) : List Nat :=
  u64ToBytes s.s0 ++ c1 :: (u64ToBytes s.s1 ++ c2 :: (u64ToBytes s.s2 ++ c3 :: u64ToBytes s.s3))

/-- The stream input operator of Xoshiro256PP: read eight raw bytes
into each state word, consuming and discarding one byte between
consecutive words without inspecting its value. A stream shorter than
the 35 bytes consumed is a read failure, modelled as none. -/
def deserialize256 : List Nat → Option State256
  | a0 :: a1 :: a2 :: a3 :: a4 :: a5 :: a6 :: a7 :: _ ::
    b0 :: b1 :: b2 :: b3 :: b4 :: b5 :: b6 :: b7 :: _ ::
    c0 :: c1 :: c2 :: c3 :: c4 :: c5 :: c6 :: c7 :: _ ::
    d0 :: d1 :: d2 :: d3 :: d4 :: d5 :: d6 :: d7 :: _ =>
      some ⟨bytesToNat [a0, a1, a2, a3, a4, a5, a6, a7],
            bytesToNat [b0, b1, b2, b3, b4, b5, b6, b7],
            bytesToNat [c0, c1, c2, c3, c4, c5, c6, c7],
            bytesToNat [d0, d1, d2, d3, d4, d5, d6, d7]⟩
  | _ => none

/-- Inverse of one step of the shift-xor cancellation below: xors a
word with its reduced left shifts by 17, 34 and 51. -/
def unshift17 (u : Nat) : Nat :=
  u ^^^ ((u <<< 17) % 2 ^ 64) ^^^ ((u <<< 34) % 2 ^ 64) ^^^ ((u <<< 51) % 2 ^ 64)

/-- Explicit inverse of the Xoshiro256PP state transition, used to
establish that the transition is injective. Not part of the source. -/
def invNext256 (s : State256) : State256 :=
  let e := rotl64 s.s3 19
  let a0 := s.s0 ^^^ e
  let x := s.s1 ^^^ s.s2
  let a1 := unshift17 x
  let a2 := s.s1 ^^^ a0 ^^^ a1
  let a3 := e ^^^ a1
  ⟨a0, a1, a2, a3⟩

lemma extract_left_eq_mod (x : Nat) :
    extract_32bits_from64_left x = x % 2 ^ 32 := by
  show x % 256 % 256 +
      256 * (x / 256 % 256 % 256 +
        256 * (x / 65536 % 256 % 256 +
          256 * (x / 16777216 % 256 % 256 + 256 * 0))) = x % 4294967296
  omega

lemma extract_right_eq_div (x : Nat) :
    extract_32bits_from64_right x = x / 2 ^ 32 % 2 ^ 32 := by
  show x / 4294967296 % 256 % 256 +
      256 * (x / 1099511627776 % 256 % 256 +
        256 * (x / 281474976710656 % 256 % 256 +
          256 * (x / 72057594037927936 % 256 % 256 + 256 * 0))) =
      x / 4294967296 % 4294967296
  omega

set_option maxHeartbeats 2000000 in
lemma stateBytes256_eq_iff (a b : State256) (ha : a.wf) (hb : b.wf) :
    stateBytes256 a = stateBytes256 b ↔ a = b := by
  obtain ⟨a0, a1, a2, a3⟩ := a
  obtain ⟨b0, b1, b2, b3⟩ := b
  obtain ⟨ha0, ha1, ha2, ha3⟩ := ha
  obtain ⟨hb0, hb1, hb2, hb3⟩ := hb
  have Ha0 : a0 < 2 ^ 64 := ha0
  have Ha1 : a1 < 2 ^ 64 := ha1
  have Ha2 : a2 < 2 ^ 64 := ha2
  have Ha3 : a3 < 2 ^ 64 := ha3
  have Hb0 : b0 < 2 ^ 64 := hb0
  have Hb1 : b1 < 2 ^ 64 := hb1
  have Hb2 : b2 < 2 ^ 64 := hb2
  have Hb3 : b3 < 2 ^ 64 := hb3
  simp only [stateBytes256, u64ToBytes, List.cons_append, List.nil_append,
    List.cons.injEq, and_true, State256.mk.injEq]
  constructor <;> intro h <;> omega

set_option maxHeartbeats 2000000 in
lemma deserialize256_serializeWith (s : State256) (c1 c2 c3 : Nat) (hwf : s.wf) :
    deserialize256 (serializeWith256 s c1 c2 c3) = some s := by
  obtain ⟨a0, a1, a2, a3⟩ := s
  obtain ⟨h0, h1, h2, h3⟩ := hwf
  have H0 : a0 < 2 ^ 64 := h0
  have H1 : a1 < 2 ^ 64 := h1
  have H2 : a2 < 2 ^ 64 := h2
  have H3 : a3 < 2 ^ 64 := h3
  simp only [serializeWith256, u64ToBytes, List.cons_append, List.nil_append, deserialize256]
  simp only [bytesToNat, List.foldr_cons, List.foldr_nil, Option.some.injEq, State256.mk.injEq]
  refine ⟨?_, ?_, ?_, ?_⟩ <;> omega

lemma serialize256_eq_with (s : State256) :
    serialize256 s = serializeWith256 s 32 32 32 := rfl

lemma discard256_eq_iterate (n : Nat) (s : State256) :
    discard256 n s = stepState256^[n] s := by
  induction n generalizing s with
  | zero => rfl
  | succ n ih => rw [discard256, ih, Function.iterate_succ_apply]

lemma discard128_eq_iterate (n : Nat) (s : State128) :
    discard128 n s = stepState128^[n] s := by
  induction n generalizing s with
  | zero => rfl
  | succ n ih => rw [discard128, ih, Function.iterate_succ_apply]

lemma rotl64_lt (x k : Nat) : rotl64 x k < 2 ^ 64 :=
  Nat.or_lt_two_pow (Nat.mod_lt _ (by norm_num)) (Nat.mod_lt _ (by norm_num))

lemma testBit_rotl64 (x k i : Nat) (hx : x < 2 ^ 64) (hk : k < 64) (hi : i < 64) :
    (rotl64 x k).testBit i = x.testBit (if i < k then i + 64 - k else i - k) := by
  have hd : decide (i < 64) = true := decide_eq_true hi
  simp only [rotl64, Nat.testBit_or, Nat.testBit_mod_two_pow, Nat.testBit_shiftLeft,
    Nat.testBit_shiftRight, hd, Bool.true_and]
  rcases Nat.lt_or_ge i k with hik | hik
  · rw [if_pos hik]
    have h1 : decide (i ≥ k) = false := decide_eq_false (by omega)
    rw [h1]
    simp only [Bool.false_and, Bool.false_or]
    congr 1
    omega
  · rw [if_neg (by omega)]
    have h1 : decide (i ≥ k) = true := decide_eq_true (by omega)
    have h2 : x.testBit (64 - k + i) = false :=
      Nat.testBit_eq_false_of_lt
        (lt_of_lt_of_le hx (Nat.pow_le_pow_right (by norm_num) (by omega)))
    rw [h1, h2]
    simp

lemma rotl64_45_19 (x : Nat) (hx : x < 2 ^ 64) :
    rotl64 (rotl64 x 45) 19 = x := by
  apply Nat.eq_of_testBit_eq
  intro i
  rcases Nat.lt_or_ge i 64 with hi | hi
  · rw [testBit_rotl64 _ 19 i (rotl64_lt x 45) (by norm_num) hi]
    rcases Nat.lt_or_ge i 19 with h19 | h19
    · rw [if_pos h19, testBit_rotl64 x 45 _ hx (by norm_num) (by omega),
        if_neg (by omega)]
      congr 1 <;> omega
    · rw [if_neg (by omega), testBit_rotl64 x 45 _ hx (by norm_num) (by omega),
        if_pos (by omega)]
      congr 1 <;> omega
  · rw [Nat.testBit_eq_false_of_lt
        (lt_of_lt_of_le (rotl64_lt _ 19) (Nat.pow_le_pow_right (by norm_num) hi)),
      Nat.testBit_eq_false_of_lt
        (lt_of_lt_of_le hx (Nat.pow_le_pow_right (by norm_num) hi))]

lemma unshift17_lt (u : Nat) (hu : u < 2 ^ 64) : unshift17 u < 2 ^ 64 := by
  have h1 : (u <<< 17) % 2 ^ 64 < 2 ^ 64 := Nat.mod_lt _ (by norm_num)
  have h2 : (u <<< 34) % 2 ^ 64 < 2 ^ 64 := Nat.mod_lt _ (by norm_num)
  have h3 : (u <<< 51) % 2 ^ 64 < 2 ^ 64 := Nat.mod_lt _ (by norm_num)
  exact Nat.xor_lt_two_pow (Nat.xor_lt_two_pow (Nat.xor_lt_two_pow hu h1) h2) h3

lemma unshift17_cancel (y : Nat) (hy : y < 2 ^ 64) :
    unshift17 (y ^^^ ((y <<< 17) % 2 ^ 64)) = y := by
  have hu : y ^^^ ((y <<< 17) % 2 ^ 64) < 2 ^ 64 :=
    Nat.xor_lt_two_pow hy (Nat.mod_lt _ (by norm_num))
  apply Nat.eq_of_testBit_eq
  intro i
  rcases Nat.lt_or_ge i 64 with hi | hi
  · simp only [unshift17, Nat.testBit_xor, Nat.testBit_mod_two_pow, Nat.testBit_shiftLeft]
    have hd : decide (i < 64) = true := decide_eq_true hi
    rcases Nat.lt_or_ge i 17 with h17 | h17
    · have e1 : decide (i ≥ 17) = false := decide_eq_false (by omega)
      have e2 : decide (i ≥ 34) = false := decide_eq_false (by omega)
      have e3 : decide (i ≥ 51) = false := decide_eq_false (by omega)
      simp [hd, e1, e2, e3]
    · rcases Nat.lt_or_ge i 34 with h34 | h34
      · have e1 : decide (i ≥ 17) = true := decide_eq_true (by omega)
        have e2 : decide (i ≥ 34) = false := decide_eq_false (by omega)
        have e3 : decide (i ≥ 51) = false := decide_eq_false (by omega)
        have e4 : decide (i - 17 ≥ 17) = false := decide_eq_false (by omega)
        have e5 : decide (i - 17 < 64) = true := decide_eq_true (by omega)
        simp [hd, e1, e2, e3, e4, e5]
      · rcases Nat.lt_or_ge i 51 with h51 | h51
        · have e1 : decide (i ≥ 17) = true := decide_eq_true (by omega)
          have e2 : decide (i ≥ 34) = true := decide_eq_true (by omega)
          have e3 : decide (i ≥ 51) = false := decide_eq_false (by omega)
          have e4 : decide (i - 17 ≥ 17) = true := decide_eq_true (by omega)
          have e5 : decide (i - 17 < 64) = true := decide_eq_true (by omega)
          have e6 : decide (i - 34 ≥ 17) = false := decide_eq_false (by omega)
          have e7 : decide (i - 34 < 64) = true := decide_eq_true (by omega)
          have e8 : i - 17 - 17 = i - 34 := by omega
          simp only [hd, e1, e2, e3, e4, e5, e6, e7, e8, Bool.true_and, Bool.false_and,
            Bool.xor_false, Bool.and_false]
          cases hb1 : y.testBit i <;> cases hb2 : y.testBit (i - 17) <;>
            cases hb3 : y.testBit (i - 34) <;> rfl
        · have e1 : decide (i ≥ 17) = true := decide_eq_true (by omega)
          have e2 : decide (i ≥ 34) = true := decide_eq_true (by omega)
          have e3 : decide (i ≥ 51) = true := decide_eq_true (by omega)
          have e4 : decide (i - 17 ≥ 17) = true := decide_eq_true (by omega)
          have e5 : decide (i - 17 < 64) = true := decide_eq_true (by omega)
          have e6 : decide (i - 34 ≥ 17) = true := decide_eq_true (by omega)
          have e7 : decide (i - 34 < 64) = true := decide_eq_true (by omega)
          have e8 : decide (i - 51 ≥ 17) = false := decide_eq_false (by omega)
          have e9 : decide (i - 51 < 64) = true := decide_eq_true (by omega)
          have f1 : i - 17 - 17 = i - 34 := by omega
          have f2 : i - 34 - 17 = i - 51 := by omega
          simp only [hd, e1, e2, e3, e4, e5, e6, e7, e8, e9, f1, f2, Bool.true_and,
            Bool.false_and, Bool.xor_false, Bool.and_false]
          cases hb1 : y.testBit i <;> cases hb2 : y.testBit (i - 17) <;>
            cases hb3 : y.testBit (i - 34) <;> cases hb4 : y.testBit (i - 51) <;> rfl
  · rw [Nat.testBit_eq_false_of_lt
        (lt_of_lt_of_le (unshift17_lt _ hu) (Nat.pow_le_pow_right (by norm_num) hi)),
      Nat.testBit_eq_false_of_lt
        (lt_of_lt_of_le hy (Nat.pow_le_pow_right (by norm_num) hi))]

lemma invNext256_stepState256 (s : State256) (hwf : s.wf) :
    invNext256 (stepState256 s) = s := by
  obtain ⟨a, b, c, d⟩ := s
  obtain ⟨h0, h1, h2, h3⟩ := hwf
  have H1 : b < 2 ^ 64 := h1
  have H3 : d < 2 ^ 64 := h3
  have hdb : d ^^^ b < 2 ^ 64 := Nat.xor_lt_two_pow H3 H1
  simp only [stepState256, next256, invNext256]
  rw [rotl64_45_19 _ hdb]
  have hx : (b ^^^ (c ^^^ a)) ^^^ ((c ^^^ a) ^^^ ((b <<< 17) % 2 ^ 64)) =
      b ^^^ ((b <<< 17) % 2 ^ 64) := by
    rw [← Nat.xor_assoc, Nat.xor_cancel_right]
  rw [hx, unshift17_cancel b H1]
  simp only [State256.mk.injEq]
  refine ⟨?_, ?_, ?_, ?_⟩
  · rw [Nat.xor_assoc, Nat.xor_self, Nat.xor_zero]
  · trivial
  · rw [Nat.xor_cancel_right (d ^^^ b) a, Nat.xor_assoc b (c ^^^ a) a,
      Nat.xor_cancel_right a c, Nat.xor_comm b c, Nat.xor_cancel_right b c]
  · exact Nat.xor_cancel_right b d

/-- C1: for every state of Xoshiro256PP, the call operator returns
rotl64 of the sum of words 0 and 3 rotated by 23 plus word 0, computed
from the pre-transition state, and the new state is exactly the result
of the sequential assignments of the source, all modulo 2 ^ 64. -/
theorem next256_formula (s : State256) :
    next256 s =
      ((rotl64 ((s.s0 + s.s3) % 2 ^ 64) 23 + s.s0) % 2 ^ 64,
        { s0 := s.s0 ^^^ (s.s3 ^^^ s.s1)
          s1 := s.s1 ^^^ (s.s2 ^^^ s.s0)
          s2 := (s.s2 ^^^ s.s0) ^^^ ((s.s1 <<< 17) % 2 ^ 64)
          s3 := rotl64 (s.s3 ^^^ s.s1) 45 }) := rfl

/-- C2 counterexample: at seed 0 the state computed by the source
differs from the state the claim describes, because on a little-endian
host the left extractor yields the low half, not the high half. -/
theorem seed128_64_claim_counterexample :
    seed128_64 0 ≠ seed128_64_claim 0 := by decide

/-- C2 amended: on a little-endian host, state word 0 is the truncated
expansion of the LOW 32 bits of t1, word 1 of the HIGH 32 bits of t1,
word 2 of the LOW 32 bits of t2 and word 3 of the HIGH 32 bits of t2,
each half zero-extended to 64 bits before expansion. -/
theorem seed128_64_formula (seed : Nat) :
    seed128_64 seed =
      { s0 := splitmix64 (splitmix64 seed % 2 ^ 32) % 2 ^ 32
        s1 := splitmix64 (splitmix64 seed / 2 ^ 32 % 2 ^ 32) % 2 ^ 32
        s2 := splitmix64 (splitmix64 (splitmix64 seed) % 2 ^ 32) % 2 ^ 32
        s3 := splitmix64 (splitmix64 (splitmix64 seed) / 2 ^ 32 % 2 ^ 32) % 2 ^ 32 } := by
  simp [seed128_64, extract_left_eq_mod, extract_right_eq_div]

/-- C3: the 32-bit-scalar seeding of Xoshiro128PP ignores the given
seed entirely, producing the 64-bit seeding of the indeterminate local
value, and in particular does not match the 64-bit seeding of the
widened scalar with both halves equal to the seed. -/
theorem seed128_32_bug :
    (∀ temp s : Nat, seed128_32 temp s = seed128_64 temp) ∧
    seed128_32 0 1 ≠ seed128_64 ((1 <<< 32) ||| 1) :=
  ⟨fun temp s => rfl, by decide⟩

/-- C4: the source equality operator returns true exactly when the two
state vectors DIFFER, and the pre-C++20 inequality operator returns
true exactly when they agree: both are inverted relative to the claim.
At the concrete failing input of two default-constructed generators,
the equality operator returns false on bitwise identical states. -/
theorem eqOp256_bug :
    (∀ a b : State256, a.wf → b.wf → (eqOp256 a b = true ↔ a ≠ b)) ∧
    (∀ a b : State256, a.wf → b.wf → (neOp256 a b = true ↔ a = b)) ∧
    eqOp256 default256 default256 = false ∧
    neOp256 default256 default256 = true := by
  refine ⟨fun a b ha hb => ?_, fun a b ha hb => ?_, by decide, by decide⟩
  · simp only [eqOp256, decide_eq_true_eq]
    exact not_congr (stateBytes256_eq_iff a b ha hb)
  · simp only [neOp256, decide_eq_true_eq]
    exact stateBytes256_eq_iff a b ha hb

/-- Witness for C4 at concrete states: the operator reports true for
two generators whose states differ. -/
theorem eqOp256_bug_witness :
    eqOp256 default256 zero256 = true :=
  (eqOp256_bug.1 default256 zero256 (by decide) (by decide)).mpr (by decide)

/-- C5: deserializing the serialized byte stream of any well-formed
state restores exactly the four state words, and a generator restored
from the snapshot produces the same output at every later step as the
original generator. -/
theorem serialize256_roundtrip (s : State256) (hwf : s.wf) :
    deserialize256 (serialize256 s) = some s ∧
    ∀ t : State256, deserialize256 (serialize256 s) = some t →
      ∀ n : Nat, output256 (stepState256^[n] t) = output256 (stepState256^[n] s) := by
  have h : deserialize256 (serialize256 s) = some s := by
    rw [serialize256_eq_with]
    exact deserialize256_serializeWith s 32 32 32 hwf
  refine ⟨h, fun t ht n => ?_⟩
  rw [h, Option.some.injEq] at ht
  rw [← ht]

/-- Witness for C5 at the default state. -/
theorem serialize256_roundtrip_witness :
    deserialize256 (serialize256 default256) = some default256 :=
  (serialize256_roundtrip default256 (by decide)).1

/-- C7: for both generators, discard n followed by one advance returns
the same value and reaches the same final state as n + 1 successive
advances keeping only the last returned value, and discard 0 leaves the
state unchanged. -/
theorem discard_next_equiv :
    (∀ (n : Nat) (s : State256),
        output256 (discard256 n s) = output256 (stepState256^[n] s) ∧
        stepState256 (discard256 n s) = stepState256^[n + 1] s) ∧
    (∀ s : State256, discard256 0 s = s) ∧
    (∀ (n : Nat) (s : State128),
        output128 (discard128 n s) = output128 (stepState128^[n] s) ∧
        stepState128 (discard128 n s) = stepState128^[n + 1] s) ∧
    (∀ s : State128, discard128 0 s = s) := by
  refine ⟨fun n s => ?_, fun s => rfl, fun n s => ?_, fun s => rfl⟩
  · rw [discard256_eq_iterate]
    exact ⟨rfl, (Function.iterate_succ_apply' stepState256 n s).symm⟩
  · rw [discard128_eq_iterate]
    exact ⟨rfl, (Function.iterate_succ_apply' stepState128 n s).symm⟩

/-- C8: deserialization succeeds for every choice of the three bytes
occupying the separator positions and yields the state encoded by the
four fixed-width word blocks, ignoring the separator values. -/
theorem deserialize256_ignores_separators (s : State256) (c1 c2 c3 : Nat) (hwf : s.wf) :
    deserialize256 (serializeWith256 s c1 c2 c3) = some s :=
  deserialize256_serializeWith s c1 c2 c3 hwf

/-- Witness for C8 with three arbitrary corrupted separator bytes. -/
theorem deserialize256_ignores_separators_witness :
    deserialize256 (serializeWith256 default256 0 255 7) = some default256 :=
  deserialize256_ignores_separators default256 0 255 7 (by decide)

/-- C9: rotation by zero is the identity, for 64-bit and for 32-bit
words. -/
theorem rotl_zero_identity :
    (∀ x : Nat, x < 2 ^ 64 → rotl64 x 0 = x) ∧
    (∀ x : Nat, x < 2 ^ 32 → rotl32 x 0 = x) := by
  constructor
  · intro x hx
    have h64 : x >>> 64 = 0 := by
      rw [Nat.shiftRight_eq_div_pow]
      exact Nat.div_eq_of_lt hx
    simp [rotl64, h64, Nat.mod_eq_of_lt hx]
    omega
  · intro x hx
    have h32 : x >>> 32 = 0 := by
      rw [Nat.shiftRight_eq_div_pow]
      exact Nat.div_eq_of_lt hx
    simp [rotl32, h32, Nat.mod_eq_of_lt hx]
    omega

/-- Witness for C9 at concrete inputs. -/
theorem rotl_zero_identity_witness :
    rotl64 5 0 = 5 ∧ rotl32 7 0 = 7 :=
  ⟨rotl_zero_identity.1 5 (by decide), rotl_zero_identity.2 7 (by decide)⟩

/-- C10: the Xoshiro256PP state transition is injective on well-formed
states, a well-formed non-zero state never steps to the all-zero state,
and from the all-zero state the call operator returns 0 and leaves the
state all-zero. -/
theorem next256_transition_properties :
    (∀ s t : State256, s.wf → t.wf → stepState256 s = stepState256 t → s = t) ∧
    (∀ s : State256, s.wf → s ≠ zero256 → stepState256 s ≠ zero256) ∧
    output256 zero256 = 0 ∧ stepState256 zero256 = zero256 := by
  refine ⟨fun s t hs ht h => ?_, fun s hs hne h => ?_, by decide, by decide⟩
  · rw [← invNext256_stepState256 s hs, ← invNext256_stepState256 t ht, h]
  · apply hne
    have hinv := invNext256_stepState256 s hs
    rw [h] at hinv
    rw [← hinv]
    decide

/-- Witness for C10: the default state is well-formed, differs from the
all-zero state, and steps to a state that is not all-zero. -/
theorem next256_transition_properties_witness :
    stepState256 default256 ≠ zero256 :=
  next256_transition_properties.2.1 default256 (by decide) (by decide)

/-- Development result related to C6: scalar seeding of Xoshiro256PP
never produces the all-zero state, for any seed value: if word 0 were
zero then word 1 would be splitmix64 of 0, which is non-zero. -/
theorem seed256_never_zero (s : Nat) : seed256 s ≠ zero256 := by
  intro h
  simp only [seed256, zero256, State256.mk.injEq] at h
  obtain ⟨h0, h1, -, -⟩ := h
  rw [h0] at h1
  exact absurd h1 (by decide)

/-- Development result related to C6: both default states are non-zero
state vectors. -/
theorem default_states_nonzero : default256 ≠ zero256 ∧ default128 ≠ zero128 := by
  decide

end Xoshiro
